import Mathlib

/-!
Verification development for the sprite-demo platformer in `src/main.rs`.

The source code works with `f32`; this embedding models all float values as
exact rationals (`ℚ`).  Every assignment and comparison in the physics and
animation code is translated directly; textures and draw calls are external
resources and carry no state relevant to the claims, so they are omitted from
the embedded structures.
-/

namespace GamingAdventure

/-- Game states (`enum GameState`, src/main.rs lines 3-7). -/
inductive GameState where
  | MainMenu
  | Demo
deriving DecidableEq

/-- Movement states (`enum MoveState`, lines 9-16). -/
inductive MoveState where
  | Idle
  | Walk
  | Run
  | Jump
  | Dash
deriving DecidableEq

/-- Jump phases (`enum JumpPhase`, lines 19-24). -/
inductive JumpPhase where
  | Takeoff
  | Air
  | Landing
deriving DecidableEq

/-- Animation identifiers (`enum AnimId`, lines 26-37). -/
inductive AnimId where
  | Idle
  | Walk
  | Run
  | Dash
  | JumpTakeoff
  | JumpRise
  | JumpApex
  | JumpFall
  | JumpLand
deriving DecidableEq

/-- Animation modes (`enum AnimMode`, lines 39-43). -/
inductive AnimMode where
  | Loop
  | Once
deriving DecidableEq

/-- An axis-aligned rectangle (macroquad `Rect`), floats as `ℚ`. -/
structure Rect where
  x : ℚ
  y : ℚ
  w : ℚ
  h : ℚ
deriving DecidableEq

/-- Embeds `struct SpriteAnim` (lines 46-52); the `texture` field is an external
resource and is omitted. -/
structure SpriteAnim where
  frames : List Rect
  durations : List ℚ
  t : ℚ
  mode : AnimMode
deriving DecidableEq

/-- Embeds `SpriteAnim::new` (lines 55-67).  The Rust constructor asserts
`!frames.is_empty() && frames.len() == durations.len()`; that assertion is
carried as a hypothesis in the theorems that need it. -/
def SpriteAnim.new (frames : List Rect) (durations : List ℚ) (mode : AnimMode) :
    SpriteAnim :=
  ⟨frames, durations, 0, mode⟩

/-- Embeds `SpriteAnim::restart` (lines 69-71). -/
def SpriteAnim.restart (a : SpriteAnim) : SpriteAnim :=
  { a with t := 0 }

/-- Embeds `SpriteAnim::update` (lines 73-75). -/
def SpriteAnim.update (a : SpriteAnim) (dt : ℚ) : SpriteAnim :=
  { a with t := a.t + dt }

/-- Embeds `SpriteAnim::total_duration` (lines 77-79): `durations.iter().sum().max(0.0001)`. -/
def SpriteAnim.total_duration (a : SpriteAnim) : ℚ :=
  max a.durations.sum (1 / 10000)

/-- Embeds `SpriteAnim::is_finished` (lines 81-83). -/
def SpriteAnim.is_finished (a : SpriteAnim) : Bool :=
  a.mode == AnimMode.Once && decide (a.total_duration ≤ a.t)

/-- Truncation of a rational toward zero (how Rust casts/`%` round). -/
def ratTrunc (q : ℚ) : ℤ :=
  if 0 ≤ q then ⌊q⌋ else ⌈q⌉

/-- Rust `f32 %` (remainder with the sign of the dividend), over `ℚ`. -/
def fmodRust (a b : ℚ) : ℚ :=
  a - b * (ratTrunc (a / b) : ℚ)

/-- The scan loop of `SpriteAnim::frame_index` (lines 93-98): returns the
index of the first duration bucket containing `time`, or `none` when `time`
runs past the whole list. -/
def frameScan (time : ℚ) : List ℚ → Option ℕ
  | [] => none
  | d :: ds => if time < d then some 0 else (frameScan (time - d) ds).map (· + 1)

/-- Embeds `SpriteAnim::frame_index` (lines 85-100). -/
def SpriteAnim.frame_index (a : SpriteAnim) : ℕ :=
  let total := a.total_duration
  let time :=
    match a.mode with
    | AnimMode.Loop => fmodRust a.t total
    | AnimMode.Once => min a.t (total - 1 / 1000000)
  (frameScan time a.durations).getD (a.frames.length - 1)

/-- The nine animations of `struct AnimSet` (lines 119-129). -/
structure AnimSet where
  idle : SpriteAnim
  walk : SpriteAnim
  run : SpriteAnim
  dash : SpriteAnim
  jump_takeoff : SpriteAnim
  jump_rise : SpriteAnim
  jump_apex : SpriteAnim
  jump_fall : SpriteAnim
  jump_land : SpriteAnim
deriving DecidableEq

/-- Embeds `struct Player` (lines 131-146).  `pos`/`vel` are split into
components; floats as `ℚ`. -/
structure Player where
  px : ℚ
  py : ℚ
  vx : ℚ
  vy : ℚ
  facing : ℚ
  on_ground : Bool
  ground_mode : MoveState
  state : MoveState
  jump_phase : JumpPhase
deriving DecidableEq

/-- Embeds `sheet_frames` (lines 148-152). -/
def sheet_frames (frame_count : ℕ) (frame_w frame_h : ℚ) : List Rect :=
  (List.range frame_count).map (fun i => ⟨(i : ℚ) * frame_w, 0, frame_w, frame_h⟩)

/-- Embeds `restart_if_changed` (lines 154-170), returning the updated anim set and
the updated `prev` id. -/
def restart_if_changed (anims : AnimSet) (prev next : AnimId) : AnimSet × AnimId :=
  if prev = next then (anims, prev)
  else
    (match next with
      | AnimId.Idle => { anims with idle := anims.idle.restart }
      | AnimId.Walk => { anims with walk := anims.walk.restart }
      | AnimId.Run => { anims with run := anims.run.restart }
      | AnimId.Dash => { anims with dash := anims.dash.restart }
      | AnimId.JumpTakeoff => { anims with jump_takeoff := anims.jump_takeoff.restart }
      | AnimId.JumpRise => { anims with jump_rise := anims.jump_rise.restart }
      | AnimId.JumpApex => { anims with jump_apex := anims.jump_apex.restart }
      | AnimId.JumpFall => { anims with jump_fall := anims.jump_fall.restart }
      | AnimId.JumpLand => { anims with jump_land := anims.jump_land.restart },
     next)

/-- Embeds `anim_for` (lines 172-199). -/
def anim_for (player : Player) : AnimId :=
  match player.state with
  | MoveState.Dash => AnimId.Dash
  | MoveState.Jump =>
    match player.jump_phase with
    | JumpPhase.Takeoff => AnimId.JumpTakeoff
    | JumpPhase.Landing => AnimId.JumpLand
    | JumpPhase.Air =>
      if player.vy < -50 then AnimId.JumpRise
      else if player.vy > 50 then AnimId.JumpFall
      else AnimId.JumpApex
  | _ =>
    match player.ground_mode with
    | MoveState.Idle => AnimId.Idle
    | MoveState.Walk => AnimId.Walk
    | MoveState.Run => AnimId.Run
    | _ => AnimId.Idle

/-- The `a.update(dt)` call on the animation selected by `anim_mut`
(lines 201-213 and 568-569). -/
def updateAnimAt (anims : AnimSet) (id : AnimId) (dt : ℚ) : AnimSet :=
  match id with
  | AnimId.Idle => { anims with idle := anims.idle.update dt }
  | AnimId.Walk => { anims with walk := anims.walk.update dt }
  | AnimId.Run => { anims with run := anims.run.update dt }
  | AnimId.Dash => { anims with dash := anims.dash.update dt }
  | AnimId.JumpTakeoff => { anims with jump_takeoff := anims.jump_takeoff.update dt }
  | AnimId.JumpRise => { anims with jump_rise := anims.jump_rise.update dt }
  | AnimId.JumpApex => { anims with jump_apex := anims.jump_apex.update dt }
  | AnimId.JumpFall => { anims with jump_fall := anims.jump_fall.update dt }
  | AnimId.JumpLand => { anims with jump_land := anims.jump_land.update dt }

/-- The screen dimensions returned by `screen_width()` / `screen_height()`. -/
structure Env where
  screenW : ℚ
  screenH : ℚ
deriving DecidableEq

/-- Embeds `let scale = 6.0` (line 298). -/
def scale : ℚ := 6

/-- Embeds `let sprite_w = 32.0 * scale` (line 299). -/
def spriteW : ℚ := 32 * scale

/-- Embeds `let sprite_h = 32.0 * scale` (line 300). -/
def spriteH : ℚ := 32 * scale

/-- Embeds `let ground_y = screen_height() * 0.75 - sprite_h` (line 302). -/
def groundY (e : Env) : ℚ := e.screenH * (75 / 100) - spriteH

/-- Embeds `let start_x = screen_width() * 0.5 - sprite_w * 0.5` (line 303). -/
def startX (e : Env) : ℚ := e.screenW * (5 / 10) - spriteW * (5 / 10)

/-- The per-frame key queries consumed by the Demo state
(`is_key_down`/`is_key_pressed`/`is_key_released`, lines 390-451). -/
structure DemoInput where
  leftDown : Bool
  rightDown : Bool
  iPressed : Bool
  wPressed : Bool
  rPressed : Bool
  jPressed : Bool
  jReleased : Bool
  dPressed : Bool
deriving DecidableEq

/-- A frame with no key activity. -/
def noInput : DemoInput :=
  ⟨false, false, false, false, false, false, false, false⟩

/-- Facing selection (lines 390-394). -/
def facingStep (inp : DemoInput) (p : Player) : Player :=
  if inp.leftDown then { p with facing := -1 }
  else if inp.rightDown then { p with facing := 1 }
  else p

/-- One ground-mode key handler (the body repeated at lines 397-405,
406-414 and 415-423 for I/W/R). -/
def modeKey (m : MoveState) (p : Player) : Player :=
  let p1 : Player := { p with ground_mode := m }
  if p1.on_ground && !(p1.state == MoveState.Dash) && !(p1.state == MoveState.Jump) then
    { p1 with state := m }
  else p1

/-- The three ground-mode key checks in source order I, W, R (lines 397-423). -/
def modeKeys (inp : DemoInput) (p : Player) : Player :=
  let p1 := if inp.iPressed then modeKey MoveState.Idle p else p
  let p2 := if inp.wPressed then modeKey MoveState.Walk p1 else p1
  if inp.rPressed then modeKey MoveState.Run p2 else p2

/-- Jump start (lines 426-435); the `anims.jump_takeoff.restart()` side
effect is applied in `demoTick`. -/
def jumpStart (inp : DemoInput) (p : Player) : Player :=
  if inp.jPressed && p.on_ground then
    { p with
      state := MoveState.Jump
      jump_phase := JumpPhase.Takeoff
      on_ground := false
      vy := -900 }
  else p

/-- Dash start (lines 438-442); the `anims.dash.restart()` side effect is
applied in `demoTick`. -/
def dashStart (inp : DemoInput) (p : Player) : Player :=
  if inp.dPressed then
    { p with state := MoveState.Dash, vx := p.facing * 1200 }
  else p

/-- Variable jump height on early release (lines 446-451):
`vel.y *= 0.45` when J is released in the Jump state with `vel.y < 0`. -/
def jumpRelease (inp : DemoInput) (p : Player) : Player :=
  if inp.jReleased && p.state == MoveState.Jump && decide (p.vy < 0) then
    { p with vy := p.vy * (45 / 100) }
  else p

/-- State-dependent horizontal velocity logic (lines 458-490). -/
def horizVel (p : Player) : Player :=
  match p.state with
  | MoveState.Dash =>
    let p1 : Player := { p with vx := p.vx * (88 / 100) }
    if |p1.vx| < 80 then
      let p2 : Player := { p1 with state := p1.ground_mode }
      if p2.on_ground then { p2 with vx := 0 } else p2
    else p1
  | MoveState.Jump =>
    let air_speed : ℚ :=
      match p.ground_mode with
      | MoveState.Run => 450 * (6 / 10)
      | MoveState.Walk => 250 * (7 / 10)
      | _ => 250 * (5 / 10)
    { p with vx := p.facing * air_speed }
  | _ =>
    let p1 : Player := { p with state := p.ground_mode }
    { p1 with
      vx :=
        match p1.ground_mode with
        | MoveState.Idle => 0
        | MoveState.Walk => p1.facing * 250
        | MoveState.Run => p1.facing * 450
        | _ => 0 }

/-- Gravity while airborne (lines 492-495), `gravity = 2200.0` (line 454). -/
def applyGravity (dt : ℚ) (p : Player) : Player :=
  if p.on_ground then p else { p with vy := p.vy + 2200 * dt }

/-- Position integration `pos += vel * dt` (line 498). -/
def integrate (dt : ℚ) (p : Player) : Player :=
  { p with px := p.px + p.vx * dt, py := p.py + p.vy * dt }

/-- Horizontal screen wrap (lines 500-511). -/
def screenWrap (e : Env) (p : Player) : Player :=
  let p1 := if p.px > e.screenW then { p with px := -spriteW } else p
  if p1.px + spriteW < 0 then { p1 with px := e.screenW } else p1

/-- Ground collision detection (lines 513-524); the second component is the
`just_landed` flag. -/
def groundCollide (e : Env) (p : Player) : Player × Bool :=
  if p.py ≥ groundY e then
    ({ p with py := groundY e, vy := 0, on_ground := true }, !p.on_ground)
  else
    ({ p with on_ground := false }, false)

/-- Jump-phase transitions (lines 526-550); also performs the
`anims.jump_land.restart()` of line 531. -/
def jumpPhaseStep (anims : AnimSet) (justLanded : Bool) (p : Player) :
    Player × AnimSet :=
  if p.state == MoveState.Jump then
    let pa :=
      if justLanded then
        ({ p with jump_phase := JumpPhase.Landing },
         { anims with jump_land := anims.jump_land.restart })
      else (p, anims)
    let p1 := pa.1
    let anims1 := pa.2
    let p2 :=
      if !p1.on_ground && !(p1.jump_phase == JumpPhase.Takeoff) then
        { p1 with jump_phase := JumpPhase.Air }
      else p1
    let p3 :=
      if p2.jump_phase == JumpPhase.Takeoff && anims1.jump_takeoff.is_finished then
        { p2 with jump_phase := JumpPhase.Air }
      else p2
    let p4 :=
      if p3.jump_phase == JumpPhase.Landing && anims1.jump_land.is_finished then
        { p3 with state := p3.ground_mode, jump_phase := JumpPhase.Air }
      else p3
    (p4, anims1)
  else (p, anims)

/-- The whole input/physics/animation pass of one `GameState::Demo` frame
(lines 389-570, everything after the Escape check). -/
def demoTick (e : Env) (inp : DemoInput) (dt : ℚ) (p : Player) (anims : AnimSet)
    (prev : AnimId) : Player × AnimSet × AnimId :=
  let p1 := facingStep inp p
  let p2 := modeKeys inp p1
  let anims1 :=
    if inp.jPressed && p2.on_ground then
      { anims with jump_takeoff := anims.jump_takeoff.restart }
    else anims
  let p3 := jumpStart inp p2
  let anims2 :=
    if inp.dPressed then { anims1 with dash := anims1.dash.restart } else anims1
  let p4 := dashStart inp p3
  let p5 := jumpRelease inp p4
  let p6 := horizVel p5
  let p7 := applyGravity dt p6
  let p8 := integrate dt p7
  let p9 := screenWrap e p8
  let pb := groundCollide e p9
  let pc := jumpPhaseStep anims2 pb.2 pb.1
  let wanted := anim_for pc.1
  let ap := restart_if_changed pc.2 prev wanted
  let anims3 := updateAnimAt ap.1 wanted dt
  (pc.1, anims3, ap.2)

/-- The initial `AnimSet` built at startup (lines 239-296). -/
def initAnims : AnimSet where
  idle := SpriteAnim.new (sheet_frames 5 32 32) (List.replicate 5 (20 / 100)) AnimMode.Loop
  walk := SpriteAnim.new (sheet_frames 4 32 32) (List.replicate 4 (12 / 100)) AnimMode.Loop
  run := SpriteAnim.new (sheet_frames 4 32 32) (List.replicate 4 (8 / 100)) AnimMode.Loop
  dash := SpriteAnim.new (sheet_frames 3 32 32) (List.replicate 3 (6 / 100)) AnimMode.Loop
  jump_takeoff :=
    SpriteAnim.new (sheet_frames 3 32 32) (List.replicate 3 (6 / 100)) AnimMode.Once
  jump_rise := SpriteAnim.new (sheet_frames 1 32 32) (List.replicate 1 1) AnimMode.Loop
  jump_apex := SpriteAnim.new (sheet_frames 1 32 32) (List.replicate 1 1) AnimMode.Loop
  jump_fall := SpriteAnim.new (sheet_frames 1 32 32) (List.replicate 1 1) AnimMode.Loop
  jump_land := SpriteAnim.new (sheet_frames 3 32 32) (List.replicate 3 (6 / 100)) AnimMode.Once

/-- The player reset performed in the MainMenu branch on Enter
(lines 340-346).  Note the source does not touch `jump_phase` here. -/
def resetPlayer (e : Env) (old : Player) : Player :=
  { old with
    px := startX e
    py := groundY e
    vx := 0
    vy := 0
    facing := 1
    on_ground := true
    ground_mode := MoveState.Idle
    state := MoveState.Idle }

/-- The `restart all for consistency` block (lines 348-356). -/
def restartAll (a : AnimSet) : AnimSet where
  idle := a.idle.restart
  walk := a.walk.restart
  run := a.run.restart
  dash := a.dash.restart
  jump_takeoff := a.jump_takeoff.restart
  jump_rise := a.jump_rise.restart
  jump_apex := a.jump_apex.restart
  jump_fall := a.jump_fall.restart
  jump_land := a.jump_land.restart

/-- Modelled from the spec: the repository's source has no score variable;
§3 and §4.5 of the spec state that a run's score is a non-negative integer
reset to 0 at each new run.  Only the reset value is needed here. -/
def resetScore : ℕ := 0

/-- The mutable state owned by `main`'s loop: current `GameState`, the
player, the anim set, the `prev_anim` id, plus the spec-modelled score. -/
structure World where
  gs : GameState
  player : Player
  anims : AnimSet
  prevAnim : AnimId
  score : ℕ
deriving DecidableEq

/-- The menu-level key queries (`Enter` and `Escape`, lines 337, 358, 384). -/
structure GameInput where
  enter : Bool
  escape : Bool
deriving DecidableEq

/-- One iteration of `main`'s loop (lines 317-575) minus drawing: `none`
means the process exited (`std::process::exit(0)`, line 359).  In the
MainMenu branch Enter is handled before Escape, exactly as in the source;
in the Demo branch Escape returns to the menu via `continue`, skipping the
physics tick.  The `score := resetScore` update is the spec-modelled part;
everything else is from the code. -/
def stepWorld (e : Env) (gi : GameInput) (di : DemoInput) (dt : ℚ) (w : World) :
    Option World :=
  match w.gs with
  | GameState.MainMenu =>
    let w1 :=
      if gi.enter then
        { w with
          gs := GameState.Demo
          player := resetPlayer e w.player
          prevAnim := AnimId.Idle
          anims := restartAll w.anims
          score := resetScore }
      else w
    if gi.escape then none else some w1
  | GameState.Demo =>
    if gi.escape then some { w with gs := GameState.MainMenu }
    else
      let r := demoTick e di dt w.player w.anims w.prevAnim
      some { w with player := r.1, anims := r.2.1, prevAnim := r.2.2 }

/-! ## Tile grid and swept movement, modelled from the spec

The repository's source contains no tile-collision engine; the definitions
below are modelled from spec §3, §4.1 and §4.3. -/

/-- Modelled from the spec (§3): `Tile: enum {Solid, Empty}`. -/
inductive Tile where
  | Solid
  | Empty
deriving DecidableEq

/-- Modelled from the spec (§3): a rectangular array of `Tile` with fixed
width `w` and height `h` in tile units, a fixed tile size `ts` (pixels) and
row-major storage `index(x, y) = y*w + x`. -/
structure TileGrid where
  w : ℕ
  h : ℕ
  ts : ℚ
  tiles : List Tile
deriving DecidableEq

/-- Modelled from the spec (§4.1): cell lookup; coordinates outside the grid
default to Empty. -/
def TileGrid.solidAt (g : TileGrid) (x y : ℕ) : Bool :=
  if x < g.w ∧ y < g.h then (g.tiles.getD (y * g.w + x) Tile.Empty) == Tile.Solid
  else false

/-- Horizontal overlap of a rectangle (half-open `[x, x+w)`) with tile
column `cx` (cells are half-open `[cx*ts, (cx+1)*ts)`). -/
def horizOverlap (g : TileGrid) (r : Rect) (cx : ℕ) : Prop :=
  (cx : ℚ) * g.ts < r.x + r.w ∧ r.x < ((cx : ℚ) + 1) * g.ts

/-- Vertical overlap of a rectangle with tile row `cy`. -/
def vertOverlap (g : TileGrid) (r : Rect) (cy : ℕ) : Prop :=
  (cy : ℚ) * g.ts < r.y + r.h ∧ r.y < ((cy : ℚ) + 1) * g.ts

instance (g : TileGrid) (r : Rect) (cx : ℕ) : Decidable (horizOverlap g r cx) := by
  unfold horizOverlap; infer_instance

instance (g : TileGrid) (r : Rect) (cy : ℕ) : Decidable (vertOverlap g r cy) := by
  unfold vertOverlap; infer_instance

/-- All cell coordinates of a grid. -/
def TileGrid.allCells (g : TileGrid) : List (ℕ × ℕ) :=
  (List.range g.w).product (List.range g.h)

/-- Modelled from the spec (§4.1, §8): `collides(rect)` is true iff some
cell the rectangle overlaps is Solid; out-of-bounds cells are non-solid. -/
def collides (g : TileGrid) (r : Rect) : Bool :=
  g.allCells.any fun c =>
    g.solidAt c.1 c.2 && decide (horizOverlap g r c.1) && decide (vertOverlap g r c.2)

/-- Candidate halt positions when sweeping right: for every solid cell in a
row the rectangle vertically overlaps whose left edge is at or beyond the
rectangle's right edge, the x position that puts the rectangle flush
against that cell. -/
def blocksRight (g : TileGrid) (r : Rect) : List ℚ :=
  g.allCells.filterMap fun c =>
    if g.solidAt c.1 c.2 ∧ vertOverlap g r c.2 ∧ r.x + r.w ≤ (c.1 : ℚ) * g.ts then
      some ((c.1 : ℚ) * g.ts - r.w)
    else none

/-- Candidate halt positions when sweeping left (x flush against the right
edge of a solid cell wholly behind the rectangle's left edge). -/
def blocksLeft (g : TileGrid) (r : Rect) : List ℚ :=
  g.allCells.filterMap fun c =>
    if g.solidAt c.1 c.2 ∧ vertOverlap g r c.2 ∧ ((c.1 : ℚ) + 1) * g.ts ≤ r.x then
      some (((c.1 : ℚ) + 1) * g.ts)
    else none

/-- Candidate halt positions when sweeping down. -/
def blocksDown (g : TileGrid) (r : Rect) : List ℚ :=
  g.allCells.filterMap fun c =>
    if g.solidAt c.1 c.2 ∧ horizOverlap g r c.1 ∧ r.y + r.h ≤ (c.2 : ℚ) * g.ts then
      some ((c.2 : ℚ) * g.ts - r.h)
    else none

/-- Candidate halt positions when sweeping up. -/
def blocksUp (g : TileGrid) (r : Rect) : List ℚ :=
  g.allCells.filterMap fun c =>
    if g.solidAt c.1 c.2 ∧ horizOverlap g r c.1 ∧ ((c.2 : ℚ) + 1) * g.ts ≤ r.y then
      some (((c.2 : ℚ) + 1) * g.ts)
    else none

/-- Minimum of a target value and every element of a list. -/
def minWith (t : ℚ) : List ℚ → ℚ
  | [] => t
  | c :: cs => min c (minWith t cs)

/-- Maximum of a target value and every element of a list. -/
def maxWith (t : ℚ) : List ℚ → ℚ
  | [] => t
  | c :: cs => max c (maxWith t cs)

/-- Modelled from the spec (§4.3): `move_h` translates the rectangle by `dx`
along X only and halts at the boundary of the first obstruction in the swept
direction (boundary-halt, sub-pixel precision, no skipping through solids). -/
def move_h (g : TileGrid) (r : Rect) (dx : ℚ) : Rect :=
  if 0 ≤ dx then { r with x := minWith (r.x + dx) (blocksRight g r) }
  else { r with x := maxWith (r.x + dx) (blocksLeft g r) }

/-- Modelled from the spec (§4.3): `move_v`, the same contract along Y. -/
def move_v (g : TileGrid) (r : Rect) (dy : ℚ) : Rect :=
  if 0 ≤ dy then { r with y := minWith (r.y + dy) (blocksDown g r) }
  else { r with y := maxWith (r.y + dy) (blocksUp g r) }

/-- A sequence of per-tick movement deltas, each resolved as `move_h` then
`move_v` (spec §8). -/
def runDeltas (g : TileGrid) (r : Rect) (ds : List (ℚ × ℚ)) : Rect :=
  ds.foldl (fun acc d => move_v g (move_h g acc d.1) d.2) r

/-! ## Helper lemmas -/

lemma frameScan_lt {time : ℚ} {ds : List ℚ} {i : ℕ} (h : frameScan time ds = some i) :
    i < ds.length := by
  induction ds generalizing time i with
  | nil => simp [frameScan] at h
  | cons d ds ih =>
    unfold frameScan at h
    split_ifs at h
    · simp only [Option.some.injEq] at h
      simp only [List.length_cons]
      omega
    · rcases Option.map_eq_some'.1 h with ⟨j, hj, hji⟩
      have := ih hj
      simp only [List.length_cons]
      omega

lemma frameScan_getD_lt (time : ℚ) (ds : List ℚ) (k : ℕ) (hk : 0 < k)
    (hkd : ds.length ≤ k) :
    (frameScan time ds).getD (k - 1) < k := by
  cases hscan : frameScan time ds with
  | none => simpa using Nat.sub_lt hk Nat.one_pos
  | some i =>
    have := frameScan_lt hscan
    simp only [Option.getD_some]
    omega

/-- C9: every `frame_index` lookup is in bounds for a `SpriteAnim` whose frame
and duration lists are non-empty and of equal length (the invariant asserted by
`SpriteAnim::new`), for every non-negative elapsed time and both modes, so the
`self.frames[self.frame_index()]` access in `SpriteAnim::draw` never panics. -/
theorem claim9_frame_index_in_bounds (a : SpriteAnim)
    (hne : a.frames ≠ []) (hlen : a.frames.length = a.durations.length)
    (ht : 0 ≤ a.t) :
    a.frame_index < a.frames.length := by
  have hpos : 0 < a.frames.length := List.length_pos.2 hne
  simp only [SpriteAnim.frame_index]
  exact frameScan_getD_lt _ _ _ hpos (le_of_eq hlen.symm)

/-- Witness for C9 at a concrete one-frame looping animation. -/
theorem claim9_witness :
    (SpriteAnim.new [⟨0, 0, 32, 32⟩] [1] AnimMode.Loop).frames ≠ [] ∧
    (SpriteAnim.new [⟨0, 0, 32, 32⟩] [1] AnimMode.Loop).frames.length =
      (SpriteAnim.new [⟨0, 0, 32, 32⟩] [1] AnimMode.Loop).durations.length ∧
    0 ≤ (SpriteAnim.new [⟨0, 0, 32, 32⟩] [1] AnimMode.Loop).t ∧
    (SpriteAnim.new [⟨0, 0, 32, 32⟩] [1] AnimMode.Loop).frame_index <
      (SpriteAnim.new [⟨0, 0, 32, 32⟩] [1] AnimMode.Loop).frames.length := by
  refine ⟨by simp [SpriteAnim.new], rfl, le_refl 0,
    claim9_frame_index_in_bounds _ (by simp [SpriteAnim.new]) rfl (le_refl 0)⟩

lemma facingStep_shape (inp : DemoInput) (p : Player) :
    ∃ f, facingStep inp p = { p with facing := f } := by
  unfold facingStep
  split_ifs <;> exact ⟨_, rfl⟩

lemma modeKey_shape (m : MoveState) (p : Player) :
    ∃ gm s, modeKey m p = { p with ground_mode := gm, state := s } := by
  simp only [modeKey]
  split_ifs <;> exact ⟨_, _, rfl⟩

lemma modeKeys_shape (inp : DemoInput) (p : Player) :
    ∃ gm s, modeKeys inp p = { p with ground_mode := gm, state := s } := by
  simp only [modeKeys]
  obtain ⟨g1, s1, h1⟩ := modeKey_shape MoveState.Idle p
  obtain ⟨g1', s1', h1'⟩ :
      ∃ gm s, (if inp.iPressed then modeKey MoveState.Idle p else p) =
        { p with ground_mode := gm, state := s } := by
    split_ifs
    · exact ⟨g1, s1, h1⟩
    · exact ⟨p.ground_mode, p.state, rfl⟩
  rw [h1']
  obtain ⟨g2, s2, h2⟩ := modeKey_shape MoveState.Walk { p with ground_mode := g1', state := s1' }
  obtain ⟨g2', s2', h2'⟩ :
      ∃ gm s, (if inp.wPressed then modeKey MoveState.Walk { p with ground_mode := g1', state := s1' }
          else { p with ground_mode := g1', state := s1' }) =
        { p with ground_mode := gm, state := s } := by
    split_ifs
    · exact ⟨g2, s2, h2⟩
    · exact ⟨g1', s1', rfl⟩
  rw [h2']
  obtain ⟨g3, s3, h3⟩ := modeKey_shape MoveState.Run { p with ground_mode := g2', state := s2' }
  split_ifs
  · exact ⟨g3, s3, h3⟩
  · exact ⟨g2', s2', rfl⟩

lemma jumpStart_shape (inp : DemoInput) (p : Player) :
    ∃ s jp og v, jumpStart inp p =
      { p with state := s, jump_phase := jp, on_ground := og, vy := v } := by
  unfold jumpStart
  split_ifs <;> exact ⟨_, _, _, _, rfl⟩

lemma jumpStart_on_ground_false (inp : DemoInput) (p : Player)
    (h : p.on_ground = false) : (jumpStart inp p).on_ground = false := by
  simp [jumpStart, h]

lemma dashStart_shape (inp : DemoInput) (p : Player) :
    ∃ s v, dashStart inp p = { p with state := s, vx := v } := by
  unfold dashStart
  split_ifs <;> exact ⟨_, _, rfl⟩

lemma jumpRelease_shape (inp : DemoInput) (p : Player) :
    ∃ v, jumpRelease inp p = { p with vy := v } := by
  unfold jumpRelease
  split_ifs <;> exact ⟨_, rfl⟩

lemma horizVel_shape (p : Player) :
    ∃ v s, horizVel p = { p with vx := v, state := s } := by
  unfold horizVel
  cases hps : p.state <;> simp only [hps] <;>
    first
      | exact ⟨_, _, rfl⟩
      | (split_ifs <;> exact ⟨_, _, rfl⟩)

lemma applyGravity_shape (dt : ℚ) (p : Player) :
    ∃ v, applyGravity dt p = { p with vy := v } := by
  unfold applyGravity
  split_ifs <;> exact ⟨_, rfl⟩

lemma screenWrap_shape (e : Env) (p : Player) :
    ∃ x, screenWrap e p = { p with px := x } := by
  simp only [screenWrap]
  split_ifs <;> exact ⟨_, rfl⟩

lemma groundCollide_shape (e : Env) (p : Player) :
    ∃ y v og, (groundCollide e p).1 = { p with py := y, vy := v, on_ground := og } := by
  unfold groundCollide
  split_ifs <;> exact ⟨_, _, _, rfl⟩

lemma jumpPhaseStep_shape (anims : AnimSet) (j : Bool) (p : Player) :
    ∃ s jp, (jumpPhaseStep anims j p).1 = { p with state := s, jump_phase := jp } := by
  simp only [jumpPhaseStep]
  split_ifs <;> exact ⟨_, _, rfl⟩

/-- The player part of the pre-physics pipeline (stages `p1`-`p6` of
`demoTick`): only `vx`, `vy`, `facing`, `state`, `ground_mode` and
`jump_phase` can change, and `on_ground` can only be switched off (by a
jump start), never on. -/
lemma preStages_on_ground_false (inp : DemoInput) (p : Player)
    (h : p.on_ground = false) :
    (horizVel (jumpRelease inp (dashStart inp (jumpStart inp
      (modeKeys inp (facingStep inp p)))))).on_ground = false := by
  obtain ⟨f1, h1⟩ := facingStep_shape inp p
  obtain ⟨g2, s2, h2⟩ := modeKeys_shape inp (facingStep inp p)
  have h3 : (jumpStart inp (modeKeys inp (facingStep inp p))).on_ground = false := by
    apply jumpStart_on_ground_false
    rw [h2, h1]
    exact h
  obtain ⟨s4, v4, h4⟩ := dashStart_shape inp (jumpStart inp (modeKeys inp (facingStep inp p)))
  obtain ⟨v5, h5⟩ := jumpRelease_shape inp (dashStart inp (jumpStart inp
    (modeKeys inp (facingStep inp p))))
  obtain ⟨v6, s6, h6⟩ := horizVel_shape (jumpRelease inp (dashStart inp (jumpStart inp
    (modeKeys inp (facingStep inp p)))))
  rw [h6, h5, h4]
  exact h3

/-- C2: the jump impulse (lines 426-435) fires only when grounded: with the
jump key pressed, a grounded player gets `vel.y = -900` (a fixed negative,
upward value) instantly, while an airborne player's `vel.y` is untouched by
the jump-start block. -/
theorem claim2_jump_impulse_only_grounded (inp : DemoInput) (p : Player)
    (hj : inp.jPressed = true) :
    (p.on_ground = true →
      (jumpStart inp p).vy = -900 ∧ (jumpStart inp p).state = MoveState.Jump ∧
        (jumpStart inp p).vy < 0) ∧
    (p.on_ground = false → (jumpStart inp p).vy = p.vy) := by
  constructor
  · intro hg
    simp only [jumpStart, hj, hg, Bool.and_self, if_true]
    norm_num
  · intro hg
    simp [jumpStart, hj, hg]

/-- Witness for C2: a grounded press jumps, an airborne press changes nothing. -/
theorem claim2_witness :
    (⟨false, false, false, false, false, true, false, false⟩ : DemoInput).jPressed = true ∧
    (jumpStart ⟨false, false, false, false, false, true, false, false⟩
        ⟨304, 258, 0, 0, 1, true, MoveState.Idle, MoveState.Idle, JumpPhase.Air⟩).vy = -900 := by
  refine ⟨rfl, ?_⟩
  exact ((claim2_jump_impulse_only_grounded _ _ rfl).1 rfl).1

/-- C10: releasing the jump key (lines 446-451) multiplies `vel.y` by `0.45`
exactly when the player is in the Jump state with upward (negative) vertical
velocity, strictly reducing the upward speed while keeping it non-positive;
in every other situation the release leaves `vel.y` unchanged. -/
theorem claim10_jump_release_cut (inp : DemoInput) (p : Player)
    (hr : inp.jReleased = true) :
    (p.state = MoveState.Jump → p.vy < 0 →
      (jumpRelease inp p).vy = p.vy * (45 / 100) ∧
        p.vy < (jumpRelease inp p).vy ∧ (jumpRelease inp p).vy ≤ 0) ∧
    (p.state ≠ MoveState.Jump → (jumpRelease inp p).vy = p.vy) ∧
    (0 ≤ p.vy → (jumpRelease inp p).vy = p.vy) := by
  refine ⟨?_, ?_, ?_⟩
  · intro hs hv
    have hcond : (inp.jReleased && p.state == MoveState.Jump && decide (p.vy < 0)) = true := by
      simp [hr, hs, hv]
    have heq : jumpRelease inp p = { p with vy := p.vy * (45 / 100) } := by
      simp [jumpRelease, hcond]
    rw [heq]
    refine ⟨rfl, ?_, ?_⟩
    · show p.vy < p.vy * (45 / 100)
      nlinarith
    · show p.vy * (45 / 100) ≤ 0
      nlinarith
  · intro hs
    have hcond : (inp.jReleased && p.state == MoveState.Jump && decide (p.vy < 0)) = false := by
      simp [hs]
    simp [jumpRelease, hcond]
  · intro hv
    have hcond : (inp.jReleased && p.state == MoveState.Jump && decide (p.vy < 0)) = false := by
      simp [not_lt.2 hv]
    simp [jumpRelease, hcond]

/-- Witness for C10: a release in the Jump state at `vel.y = -900` cuts the
velocity to `-405`. -/
theorem claim10_witness :
    (⟨false, false, false, false, false, false, true, false⟩ : DemoInput).jReleased = true ∧
    (jumpRelease ⟨false, false, false, false, false, false, true, false⟩
        ⟨304, 100, 0, -900, 1, false, MoveState.Idle, MoveState.Jump, JumpPhase.Air⟩).vy =
      (-900 : ℚ) * (45 / 100) := by
  refine ⟨rfl, ?_⟩
  exact ((claim10_jump_release_cut _ _ rfl).1 rfl (by norm_num)).1

/-- The player produced by `demoTick` is `jumpPhaseStep` applied to the
ground-collision result of the staged physics pipeline (for some anim set). -/
lemma demoTick_player_shape (e : Env) (inp : DemoInput) (dt : ℚ) (p : Player)
    (anims : AnimSet) (prev : AnimId) :
    ∃ a2, (demoTick e inp dt p anims prev).1 =
      (jumpPhaseStep a2
        (groundCollide e (screenWrap e (integrate dt (applyGravity dt (horizVel
          (jumpRelease inp (dashStart inp (jumpStart inp (modeKeys inp
            (facingStep inp p)))))))))).2
        (groundCollide e (screenWrap e (integrate dt (applyGravity dt (horizVel
          (jumpRelease inp (dashStart inp (jumpStart inp (modeKeys inp
            (facingStep inp p)))))))))).1).1 :=
  ⟨_, rfl⟩

/-- C8: after every Demo-state tick the player satisfies the ground
invariant enforced by lines 513-524: never below the ground line, grounded
exactly when resting on it, and at rest vertically when grounded. -/
theorem claim8_ground_invariant (e : Env) (inp : DemoInput) (dt : ℚ) (p : Player)
    (anims : AnimSet) (prev : AnimId) :
    (demoTick e inp dt p anims prev).1.py ≤ groundY e ∧
    ((demoTick e inp dt p anims prev).1.on_ground = true ↔
      (demoTick e inp dt p anims prev).1.py = groundY e) ∧
    ((demoTick e inp dt p anims prev).1.on_ground = true →
      (demoTick e inp dt p anims prev).1.vy = 0) := by
  obtain ⟨a2, hpl⟩ := demoTick_player_shape e inp dt p anims prev
  rw [hpl]
  obtain ⟨s, jp, hshape⟩ := jumpPhaseStep_shape a2 _ _
  rw [hshape]
  simp only []
  unfold groundCollide
  split_ifs with hge
  · simp
  · push_neg at hge
    simp only []
    exact ⟨le_of_lt hge, by simp [ne_of_lt hge], by simp⟩

/-- C1: in a tick that starts airborne, gravity is added to `vel.y` before
integration (lines 492-498), and if integration carries the player to or
past the ground line, that same tick zeroes `vel.y`, clamps `pos.y` onto
the ground line and flips `on_ground` from false to true (lines 513-524). -/
theorem claim1_airborne_gravity_landing (e : Env) (inp : DemoInput) (dt : ℚ)
    (p : Player) (anims : AnimSet) (prev : AnimId)
    (hair : p.on_ground = false) :
    (applyGravity dt (horizVel (jumpRelease inp (dashStart inp (jumpStart inp
        (modeKeys inp (facingStep inp p))))))).vy =
      (horizVel (jumpRelease inp (dashStart inp (jumpStart inp
        (modeKeys inp (facingStep inp p)))))).vy + 2200 * dt ∧
    (integrate dt (applyGravity dt (horizVel (jumpRelease inp (dashStart inp
        (jumpStart inp (modeKeys inp (facingStep inp p)))))))).py =
      (horizVel (jumpRelease inp (dashStart inp (jumpStart inp
        (modeKeys inp (facingStep inp p)))))).py +
        ((horizVel (jumpRelease inp (dashStart inp (jumpStart inp
          (modeKeys inp (facingStep inp p)))))).vy + 2200 * dt) * dt ∧
    (groundY e ≤ (integrate dt (applyGravity dt (horizVel (jumpRelease inp
        (dashStart inp (jumpStart inp (modeKeys inp (facingStep inp p)))))))).py →
      (demoTick e inp dt p anims prev).1.vy = 0 ∧
      (demoTick e inp dt p anims prev).1.py = groundY e ∧
      (demoTick e inp dt p anims prev).1.on_ground = true) := by
  have hq : (horizVel (jumpRelease inp (dashStart inp (jumpStart inp
      (modeKeys inp (facingStep inp p)))))).on_ground = false :=
    preStages_on_ground_false inp p hair
  have hgrav : applyGravity dt (horizVel (jumpRelease inp (dashStart inp
      (jumpStart inp (modeKeys inp (facingStep inp p)))))) =
      { horizVel (jumpRelease inp (dashStart inp (jumpStart inp
          (modeKeys inp (facingStep inp p))))) with
        vy := (horizVel (jumpRelease inp (dashStart inp (jumpStart inp
          (modeKeys inp (facingStep inp p)))))).vy + 2200 * dt } := by
    simp [applyGravity, hq]
  refine ⟨by rw [hgrav], by rw [hgrav]; rfl, ?_⟩
  intro hland
  obtain ⟨a2, hpl⟩ := demoTick_player_shape e inp dt p anims prev
  rw [hpl]
  obtain ⟨s, jp, hshape⟩ := jumpPhaseStep_shape a2 _ _
  rw [hshape]
  obtain ⟨x, hwrap⟩ := screenWrap_shape e (integrate dt (applyGravity dt (horizVel
    (jumpRelease inp (dashStart inp (jumpStart inp (modeKeys inp
      (facingStep inp p))))))))
  rw [hwrap]
  unfold groundCollide
  rw [if_pos (by simpa using hland)]
  simp

/-- Witness for C1: an airborne fall from `pos.y = 0` with `dt = 1` lands
on the ground line in one tick. -/
theorem claim1_witness :
    (⟨100, 0, 0, 100, 1, false, MoveState.Idle, MoveState.Jump,
        JumpPhase.Air⟩ : Player).on_ground = false ∧
    ((demoTick ⟨800, 600⟩ noInput 1
        ⟨100, 0, 0, 100, 1, false, MoveState.Idle, MoveState.Jump, JumpPhase.Air⟩
        initAnims AnimId.Idle).1.vy = 0 ∧
      (demoTick ⟨800, 600⟩ noInput 1
        ⟨100, 0, 0, 100, 1, false, MoveState.Idle, MoveState.Jump, JumpPhase.Air⟩
        initAnims AnimId.Idle).1.py = groundY ⟨800, 600⟩ ∧
      (demoTick ⟨800, 600⟩ noInput 1
        ⟨100, 0, 0, 100, 1, false, MoveState.Idle, MoveState.Jump, JumpPhase.Air⟩
        initAnims AnimId.Idle).1.on_ground = true) := by
  refine ⟨rfl, (claim1_airborne_gravity_landing ⟨800, 600⟩ noInput 1 _ initAnims
    AnimId.Idle rfl).2.2 ?_⟩
  norm_num [integrate, applyGravity, horizVel, jumpRelease, dashStart, jumpStart,
    modeKeys, modeKey, facingStep, noInput, groundY, spriteH, spriteW, scale]

/-- C3: horizontal screen wrap (lines 500-511): when the integrated
position has fully exited one side, only `pos.x` is teleported flush to the
opposite side; `pos.y`, the velocity and every other field are untouched,
and no later stage of the tick modifies `pos.x` again. -/
theorem claim3_screen_wrap (e : Env) (inp : DemoInput) (dt : ℚ) (p : Player)
    (anims : AnimSet) (prev : AnimId) :
    ((integrate dt (applyGravity dt (horizVel (jumpRelease inp (dashStart inp
        (jumpStart inp (modeKeys inp (facingStep inp p)))))))).px > e.screenW →
      (screenWrap e (integrate dt (applyGravity dt (horizVel (jumpRelease inp
        (dashStart inp (jumpStart inp (modeKeys inp
          (facingStep inp p))))))))).px = -spriteW) ∧
    ((integrate dt (applyGravity dt (horizVel (jumpRelease inp (dashStart inp
        (jumpStart inp (modeKeys inp (facingStep inp p)))))))).px ≤ e.screenW →
      (integrate dt (applyGravity dt (horizVel (jumpRelease inp (dashStart inp
        (jumpStart inp (modeKeys inp (facingStep inp p)))))))).px + spriteW < 0 →
      (screenWrap e (integrate dt (applyGravity dt (horizVel (jumpRelease inp
        (dashStart inp (jumpStart inp (modeKeys inp
          (facingStep inp p))))))))).px = e.screenW) ∧
    (∀ q : Player, (screenWrap e q).py = q.py ∧ (screenWrap e q).vx = q.vx ∧
      (screenWrap e q).vy = q.vy ∧ (screenWrap e q).facing = q.facing ∧
      (screenWrap e q).on_ground = q.on_ground ∧
      (screenWrap e q).state = q.state) ∧
    (demoTick e inp dt p anims prev).1.px =
      (screenWrap e (integrate dt (applyGravity dt (horizVel (jumpRelease inp
        (dashStart inp (jumpStart inp (modeKeys inp
          (facingStep inp p))))))))).px := by
  refine ⟨?_, ?_, ?_, ?_⟩
  · intro h
    simp only [screenWrap]
    rw [if_pos h, if_neg (by norm_num)]
  · intro h1 h2
    simp only [screenWrap]
    rw [if_neg (not_lt.2 h1), if_pos h2]
  · intro q
    obtain ⟨x, hw⟩ := screenWrap_shape e q
    rw [hw]
    exact ⟨rfl, rfl, rfl, rfl, rfl, rfl⟩
  · obtain ⟨a2, hpl⟩ := demoTick_player_shape e inp dt p anims prev
    rw [hpl]
    obtain ⟨s, jp, hshape⟩ := jumpPhaseStep_shape a2 _ _
    rw [hshape]
    obtain ⟨y, v, og, hgc⟩ := groundCollide_shape e (screenWrap e (integrate dt
      (applyGravity dt (horizVel (jumpRelease inp (dashStart inp (jumpStart inp
        (modeKeys inp (facingStep inp p)))))))))
    rw [hgc]

/-- Witness for C3: a run-speed tick carries the player past the right
edge and the wrap teleports `pos.x` to `-sprite_w`. -/
theorem claim3_witness :
    (integrate 1 (applyGravity 1 (horizVel (jumpRelease noInput (dashStart noInput
        (jumpStart noInput (modeKeys noInput (facingStep noInput
          (⟨700, 0, 0, 0, 1, false, MoveState.Run, MoveState.Run,
            JumpPhase.Air⟩ : Player))))))))).px > (⟨800, 600⟩ : Env).screenW ∧
    (screenWrap ⟨800, 600⟩ (integrate 1 (applyGravity 1 (horizVel (jumpRelease noInput
        (dashStart noInput (jumpStart noInput (modeKeys noInput (facingStep noInput
          (⟨700, 0, 0, 0, 1, false, MoveState.Run, MoveState.Run,
            JumpPhase.Air⟩ : Player)))))))))).px = -spriteW := by
  have h : (integrate 1 (applyGravity 1 (horizVel (jumpRelease noInput (dashStart noInput
      (jumpStart noInput (modeKeys noInput (facingStep noInput
        (⟨700, 0, 0, 0, 1, false, MoveState.Run, MoveState.Run,
          JumpPhase.Air⟩ : Player))))))))).px > (⟨800, 600⟩ : Env).screenW := by
    norm_num [integrate, applyGravity, horizVel, jumpRelease, dashStart, jumpStart,
      modeKeys, modeKey, facingStep, noInput]
  exact ⟨h, (claim3_screen_wrap ⟨800, 600⟩ noInput 1 _ initAnims AnimId.Idle).1 h⟩

/-- Counterexample to C4 as stated: with `dt = 0` and no input, a grounded
idle player carrying a stale horizontal velocity has `vel.x` rewritten to 0
by the per-tick horizontal-velocity logic (lines 480-489), so a zero-dt tick
is not a no-op on every player state. -/
theorem claim4_counterexample :
    (⟨100, 258, 5, 0, 1, true, MoveState.Idle, MoveState.Idle,
        JumpPhase.Air⟩ : Player).vx = 5 ∧
    (demoTick ⟨800, 600⟩ noInput 0
        ⟨100, 258, 5, 0, 1, true, MoveState.Idle, MoveState.Idle, JumpPhase.Air⟩
        initAnims AnimId.Idle).1.vx = 0 := by
  refine ⟨rfl, ?_⟩
  norm_num [demoTick, noInput, facingStep, modeKeys, modeKey, jumpStart, dashStart,
    jumpRelease, horizVel, applyGravity, integrate, screenWrap, groundCollide,
    jumpPhaseStep, groundY, spriteW, spriteH, scale]

/-- C4 (amended): a tick with `dt = 0` and no input events performs no
division or modulo (the update contains none) and leaves position, vertical
velocity, facing and the grounded flag unchanged, provided the player is
on-screen and satisfies the ground-consistency invariant; horizontal
velocity and movement state are recomputed from the current mode every tick
and may change. -/
theorem claim4_amended_dt_zero (e : Env) (p : Player) (anims : AnimSet)
    (prev : AnimId)
    (hx1 : p.px ≤ e.screenW) (hx2 : 0 ≤ p.px + spriteW)
    (hy : p.py ≤ groundY e)
    (hg : p.on_ground = true ↔ p.py = groundY e)
    (hv : p.on_ground = true → p.vy = 0) :
    (demoTick e noInput 0 p anims prev).1.px = p.px ∧
    (demoTick e noInput 0 p anims prev).1.py = p.py ∧
    (demoTick e noInput 0 p anims prev).1.vy = p.vy ∧
    (demoTick e noInput 0 p anims prev).1.facing = p.facing ∧
    (demoTick e noInput 0 p anims prev).1.on_ground = p.on_ground := by
  obtain ⟨a2, hpl⟩ := demoTick_player_shape e noInput 0 p anims prev
  rw [hpl]
  have h1 : facingStep noInput p = p := rfl
  have h2 : modeKeys noInput p = p := rfl
  have h3 : jumpStart noInput p = p := rfl
  have h4 : dashStart noInput p = p := rfl
  have h5 : jumpRelease noInput p = p := rfl
  rw [h1, h2, h3, h4, h5]
  obtain ⟨v6, s6, h6⟩ := horizVel_shape p
  rw [h6]
  have h7 : applyGravity 0 { p with vx := v6, state := s6 } =
      { p with vx := v6, state := s6 } := by
    unfold applyGravity
    split_ifs
    · rfl
    · simp
  have h8 : integrate 0 { p with vx := v6, state := s6 } =
      { p with vx := v6, state := s6 } := by
    simp [integrate]
  have h9 : screenWrap e { p with vx := v6, state := s6 } =
      { p with vx := v6, state := s6 } := by
    simp only [screenWrap]
    rw [if_neg (not_lt.2 hx1), if_neg (not_lt.2 hx2)]
  rw [h7, h8, h9]
  have h10 : (groundCollide e { p with vx := v6, state := s6 }).1 =
      { p with vx := v6, state := s6 } := by
    unfold groundCollide
    split_ifs with hge
    · have hpy : p.py = groundY e := le_antisymm hy hge
      have hog : p.on_ground = true := hg.2 hpy
      have hvy : p.vy = 0 := hv hog
      simp only []
      rw [← hpy, ← hvy, ← hog]
    · push_neg at hge
      have hog : p.on_ground = false := by
        cases hob : p.on_ground
        · rfl
        · exact absurd (hg.1 hob) (ne_of_lt hge)
      simp only []
      rw [← hog]
  rw [h10]
  obtain ⟨s11, jp11, h11⟩ := jumpPhaseStep_shape a2
    (groundCollide e { p with vx := v6, state := s6 }).2
    { p with vx := v6, state := s6 }
  rw [h11]
  exact ⟨rfl, rfl, rfl, rfl, rfl⟩

/-- Witness for the amended C4 at a grounded idle player. -/
theorem claim4_witness :
    (⟨304, 258, 0, 0, 1, true, MoveState.Idle, MoveState.Idle,
        JumpPhase.Air⟩ : Player).px ≤ (⟨800, 600⟩ : Env).screenW ∧
    (demoTick ⟨800, 600⟩ noInput 0
        ⟨304, 258, 0, 0, 1, true, MoveState.Idle, MoveState.Idle, JumpPhase.Air⟩
        initAnims AnimId.Idle).1.py =
      (⟨304, 258, 0, 0, 1, true, MoveState.Idle, MoveState.Idle,
        JumpPhase.Air⟩ : Player).py := by
  refine ⟨by norm_num, ?_⟩
  exact (claim4_amended_dt_zero ⟨800, 600⟩ _ initAnims AnimId.Idle
    (by norm_num) (by norm_num [spriteW, scale])
    (by norm_num [groundY, spriteH, scale])
    (by norm_num [groundY, spriteH, scale]) (fun _ => rfl)).2.1

/-- Counterexample to C5 as stated: the code's only in-play transition on a
menu-class input is `Demo → MainMenu` on Escape (lines 384-387), a
transition absent from the claimed list (which would require Escape in the
playing state to yield Paused or leave the state unchanged); the code has
no Paused or GameOver state at all. -/
theorem claim5_counterexample :
    (stepWorld ⟨800, 600⟩ ⟨false, true⟩ noInput 0
        ⟨GameState.Demo,
          ⟨304, 258, 0, 0, 1, true, MoveState.Idle, MoveState.Idle, JumpPhase.Air⟩,
          initAnims, AnimId.Idle, 0⟩).map World.gs = some GameState.MainMenu ∧
    GameState.MainMenu ≠ GameState.Demo := by
  exact ⟨rfl, by decide⟩

/-- C5 (amended): the code's state machine has exactly two states; the full
step relation is: MainMenu exits the process on Escape, otherwise goes to
Demo on Enter and stays otherwise; Demo returns to MainMenu on Escape and
stays in Demo otherwise.  No other transition ever occurs. -/
theorem claim5_amended_transitions (e : Env) (gi : GameInput) (di : DemoInput)
    (dt : ℚ) (w : World) :
    (stepWorld e gi di dt w).map World.gs =
      (match w.gs with
      | GameState.MainMenu =>
        if gi.escape then none
        else some (if gi.enter then GameState.Demo else GameState.MainMenu)
      | GameState.Demo =>
        some (if gi.escape then GameState.MainMenu else GameState.Demo)) := by
  rcases w with ⟨gs, pl, an, pr, sc⟩
  cases gs
  · cases he : gi.enter <;> cases hesc : gi.escape <;>
      simp [stepWorld, he, hesc]
  · cases hesc : gi.escape <;> simp [stepWorld, hesc]

/-- C6: the MainMenu→Demo transition on Enter performs the full reset of
lines 340-346 (together with the spec-modelled score reset): whatever the
previous world was, the new world has score 0 and the player exactly at the
fixed spawn, with zero velocity, grounded, facing right and idle. -/
theorem claim6_full_reset (e : Env) (gi : GameInput) (di : DemoInput) (dt : ℚ)
    (w : World) (hgs : w.gs = GameState.MainMenu) (hent : gi.enter = true)
    (hesc : gi.escape = false) :
    ∃ w', stepWorld e gi di dt w = some w' ∧ w'.gs = GameState.Demo ∧
      w'.score = 0 ∧ w'.player.px = startX e ∧ w'.player.py = groundY e ∧
      w'.player.vx = 0 ∧ w'.player.vy = 0 ∧ w'.player.facing = 1 ∧
      w'.player.on_ground = true ∧ w'.player.state = MoveState.Idle := by
  refine ⟨{ w with
              gs := GameState.Demo, player := resetPlayer e w.player,
              prevAnim := AnimId.Idle, anims := restartAll w.anims,
              score := resetScore },
    ?_, rfl, rfl, rfl, rfl, rfl, rfl, rfl, rfl, rfl⟩
  obtain ⟨gs, pl, an, pr, sc⟩ := w
  change gs = GameState.MainMenu at hgs
  subst hgs
  simp [stepWorld, hent, hesc]

/-- Witness for C6: a world that ended a previous run with nonzero score and
a scrambled player is fully reset. -/
theorem claim6_witness :
    (⟨GameState.MainMenu,
        ⟨0, 0, 3, 4, -1, false, MoveState.Run, MoveState.Dash, JumpPhase.Air⟩,
        initAnims, AnimId.Dash, 7⟩ : World).gs = GameState.MainMenu ∧
    (∃ w', stepWorld ⟨800, 600⟩ ⟨true, false⟩ noInput 0
        ⟨GameState.MainMenu,
          ⟨0, 0, 3, 4, -1, false, MoveState.Run, MoveState.Dash, JumpPhase.Air⟩,
          initAnims, AnimId.Dash, 7⟩ = some w' ∧
      w'.gs = GameState.Demo ∧ w'.score = 0 ∧
      w'.player.px = startX ⟨800, 600⟩ ∧ w'.player.py = groundY ⟨800, 600⟩ ∧
      w'.player.vx = 0 ∧ w'.player.vy = 0 ∧ w'.player.facing = 1 ∧
      w'.player.on_ground = true ∧ w'.player.state = MoveState.Idle) :=
  ⟨rfl, claim6_full_reset ⟨800, 600⟩ ⟨true, false⟩ noInput 0 _ rfl rfl rfl⟩

lemma solidAt_bounds {g : TileGrid} {x y : ℕ} (h : g.solidAt x y = true) :
    x < g.w ∧ y < g.h := by
  unfold TileGrid.solidAt at h
  split_ifs at h with hb
  exact hb

lemma mem_allCells {g : TileGrid} {c : ℕ × ℕ} :
    c ∈ g.allCells ↔ c.1 < g.w ∧ c.2 < g.h := by
  rcases c with ⟨cx, cy⟩
  simp [TileGrid.allCells, List.pair_mem_product]

lemma collides_eq_false_iff {g : TileGrid} {r : Rect} :
    collides g r = false ↔
      ∀ cx cy, g.solidAt cx cy = true → horizOverlap g r cx →
        vertOverlap g r cy → False := by
  constructor
  · intro h cx cy hs hho hvo
    have hb := solidAt_bounds hs
    have hmem : (cx, cy) ∈ g.allCells := mem_allCells.2 ⟨hb.1, hb.2⟩
    have hpred : (g.solidAt cx cy && decide (horizOverlap g r cx) &&
        decide (vertOverlap g r cy)) = true := by
      simp [hs, hho, hvo]
    have hany : collides g r = true :=
      List.any_eq_true.2 ⟨(cx, cy), hmem, hpred⟩
    rw [h] at hany
    cases hany
  · intro h
    cases hcol : collides g r
    · rfl
    · rcases List.any_eq_true.1 hcol with ⟨⟨cx, cy⟩, hmem, hpred⟩
      simp only [Bool.and_eq_true, decide_eq_true_eq] at hpred
      exact absurd (h cx cy hpred.1.1 hpred.1.2 hpred.2) (fun hf => hf)

lemma minWith_le (t : ℚ) (l : List ℚ) : minWith t l ≤ t := by
  induction l with
  | nil => exact le_refl t
  | cons c cs ih => exact le_trans (min_le_right _ _) ih

lemma minWith_le_mem (t : ℚ) {l : List ℚ} {c : ℚ} (h : c ∈ l) : minWith t l ≤ c := by
  induction l with
  | nil => cases h
  | cons d ds ih =>
    rcases List.mem_cons.1 h with h1 | h2
    · rw [h1]
      exact min_le_left _ _
    · exact le_trans (min_le_right _ _) (ih h2)

lemma minWith_mem_or (t : ℚ) (l : List ℚ) : minWith t l = t ∨ minWith t l ∈ l := by
  induction l with
  | nil => exact Or.inl rfl
  | cons c cs ih =>
    rcases min_choice c (minWith t cs) with h | h
    · right
      rw [minWith, h]
      exact List.mem_cons_self _ _
    · rcases ih with h2 | h2
      · left
        rw [minWith, h, h2]
      · right
        rw [minWith, h]
        exact List.mem_cons_of_mem _ h2

lemma le_maxWith (t : ℚ) (l : List ℚ) : t ≤ maxWith t l := by
  induction l with
  | nil => exact le_refl t
  | cons c cs ih => exact le_trans ih (le_max_right _ _)

lemma mem_le_maxWith (t : ℚ) {l : List ℚ} {c : ℚ} (h : c ∈ l) : c ≤ maxWith t l := by
  induction l with
  | nil => cases h
  | cons d ds ih =>
    rcases List.mem_cons.1 h with h1 | h2
    · rw [h1]
      exact le_max_left _ _
    · exact le_trans (ih h2) (le_max_right _ _)

lemma maxWith_mem_or (t : ℚ) (l : List ℚ) : maxWith t l = t ∨ maxWith t l ∈ l := by
  induction l with
  | nil => exact Or.inl rfl
  | cons c cs ih =>
    rcases max_choice c (maxWith t cs) with h | h
    · right
      rw [maxWith, h]
      exact List.mem_cons_self _ _
    · rcases ih with h2 | h2
      · left
        rw [maxWith, h, h2]
      · right
        rw [maxWith, h]
        exact List.mem_cons_of_mem _ h2

lemma mem_blocksRight {g : TileGrid} {r : Rect} {q : ℚ} :
    q ∈ blocksRight g r ↔ ∃ cx cy, g.solidAt cx cy = true ∧ vertOverlap g r cy ∧
      r.x + r.w ≤ (cx : ℚ) * g.ts ∧ q = (cx : ℚ) * g.ts - r.w := by
  unfold blocksRight
  rw [List.mem_filterMap]
  constructor
  · rintro ⟨⟨cx, cy⟩, hmem, hf⟩
    split_ifs at hf with hcnd
    · rcases hcnd with ⟨h1, h2, h3⟩
      simp only [Option.some.injEq] at hf
      exact ⟨cx, cy, h1, h2, h3, hf.symm⟩
  · rintro ⟨cx, cy, h1, h2, h3, h4⟩
    refine ⟨(cx, cy), mem_allCells.2 ⟨(solidAt_bounds h1).1, (solidAt_bounds h1).2⟩, ?_⟩
    rw [if_pos ⟨h1, h2, h3⟩, h4]

lemma mem_blocksLeft {g : TileGrid} {r : Rect} {q : ℚ} :
    q ∈ blocksLeft g r ↔ ∃ cx cy, g.solidAt cx cy = true ∧ vertOverlap g r cy ∧
      ((cx : ℚ) + 1) * g.ts ≤ r.x ∧ q = ((cx : ℚ) + 1) * g.ts := by
  unfold blocksLeft
  rw [List.mem_filterMap]
  constructor
  · rintro ⟨⟨cx, cy⟩, hmem, hf⟩
    split_ifs at hf with hcnd
    · rcases hcnd with ⟨h1, h2, h3⟩
      simp only [Option.some.injEq] at hf
      exact ⟨cx, cy, h1, h2, h3, hf.symm⟩
  · rintro ⟨cx, cy, h1, h2, h3, h4⟩
    refine ⟨(cx, cy), mem_allCells.2 ⟨(solidAt_bounds h1).1, (solidAt_bounds h1).2⟩, ?_⟩
    rw [if_pos ⟨h1, h2, h3⟩, h4]

lemma mem_blocksDown {g : TileGrid} {r : Rect} {q : ℚ} :
    q ∈ blocksDown g r ↔ ∃ cx cy, g.solidAt cx cy = true ∧ horizOverlap g r cx ∧
      r.y + r.h ≤ (cy : ℚ) * g.ts ∧ q = (cy : ℚ) * g.ts - r.h := by
  unfold blocksDown
  rw [List.mem_filterMap]
  constructor
  · rintro ⟨⟨cx, cy⟩, hmem, hf⟩
    split_ifs at hf with hcnd
    · rcases hcnd with ⟨h1, h2, h3⟩
      simp only [Option.some.injEq] at hf
      exact ⟨cx, cy, h1, h2, h3, hf.symm⟩
  · rintro ⟨cx, cy, h1, h2, h3, h4⟩
    refine ⟨(cx, cy), mem_allCells.2 ⟨(solidAt_bounds h1).1, (solidAt_bounds h1).2⟩, ?_⟩
    rw [if_pos ⟨h1, h2, h3⟩, h4]

lemma mem_blocksUp {g : TileGrid} {r : Rect} {q : ℚ} :
    q ∈ blocksUp g r ↔ ∃ cx cy, g.solidAt cx cy = true ∧ horizOverlap g r cx ∧
      ((cy : ℚ) + 1) * g.ts ≤ r.y ∧ q = ((cy : ℚ) + 1) * g.ts := by
  unfold blocksUp
  rw [List.mem_filterMap]
  constructor
  · rintro ⟨⟨cx, cy⟩, hmem, hf⟩
    split_ifs at hf with hcnd
    · rcases hcnd with ⟨h1, h2, h3⟩
      simp only [Option.some.injEq] at hf
      exact ⟨cx, cy, h1, h2, h3, hf.symm⟩
  · rintro ⟨cx, cy, h1, h2, h3, h4⟩
    refine ⟨(cx, cy), mem_allCells.2 ⟨(solidAt_bounds h1).1, (solidAt_bounds h1).2⟩, ?_⟩
    rw [if_pos ⟨h1, h2, h3⟩, h4]

/-- A horizontal boundary-halt move starting from a non-overlapping
rectangle never ends overlapping a solid cell. -/
lemma move_h_safe (g : TileGrid) (r : Rect) (dx : ℚ)
    (hc : collides g r = false) : collides g (move_h g r dx) = false := by
  unfold move_h
  split_ifs with hdx
  · rw [collides_eq_false_iff] at hc ⊢
    intro cx cy hs hho hvo
    set m := minWith (r.x + dx) (blocksRight g r) with hm
    have hxm : r.x ≤ m := by
      rcases minWith_mem_or (r.x + dx) (blocksRight g r) with h | h
      · rw [← hm] at h
        rw [h]
        linarith
      · rw [← hm] at h
        rcases mem_blocksRight.1 h with ⟨cx', cy', _, _, h3, h4⟩
        rw [h4]
        linarith
    have hhr : (cx : ℚ) * g.ts < m + r.w ∧ m < ((cx : ℚ) + 1) * g.ts := hho
    by_cases hcand : r.x + r.w ≤ (cx : ℚ) * g.ts
    · have hmem : ((cx : ℚ) * g.ts - r.w) ∈ blocksRight g r :=
        mem_blocksRight.2 ⟨cx, cy, hs, hvo, hcand, rfl⟩
      have hle := minWith_le_mem (r.x + dx) hmem
      rw [← hm] at hle
      linarith [hhr.1]
    · push_neg at hcand
      have hnot := hc cx cy hs
      have hxge : ((cx : ℚ) + 1) * g.ts ≤ r.x := by
        by_contra hlt
        push_neg at hlt
        exact hnot ⟨hcand, hlt⟩ hvo
      linarith [hhr.2]
  · push_neg at hdx
    rw [collides_eq_false_iff] at hc ⊢
    intro cx cy hs hho hvo
    set m := maxWith (r.x + dx) (blocksLeft g r) with hm
    have hxm : m ≤ r.x := by
      rcases maxWith_mem_or (r.x + dx) (blocksLeft g r) with h | h
      · rw [← hm] at h
        rw [h]
        linarith
      · rw [← hm] at h
        rcases mem_blocksLeft.1 h with ⟨cx', cy', _, _, h3, h4⟩
        rw [h4]
        linarith
    have hhr : (cx : ℚ) * g.ts < m + r.w ∧ m < ((cx : ℚ) + 1) * g.ts := hho
    by_cases hcand : ((cx : ℚ) + 1) * g.ts ≤ r.x
    · have hmem : (((cx : ℚ) + 1) * g.ts) ∈ blocksLeft g r :=
        mem_blocksLeft.2 ⟨cx, cy, hs, hvo, hcand, rfl⟩
      have hle := mem_le_maxWith (r.x + dx) hmem
      rw [← hm] at hle
      linarith [hhr.2]
    · push_neg at hcand
      have hnot := hc cx cy hs
      have hwle : r.x + r.w ≤ (cx : ℚ) * g.ts := by
        by_contra hlt
        push_neg at hlt
        exact hnot ⟨hlt, hcand⟩ hvo
      linarith [hhr.1]

/-- A vertical boundary-halt move starting from a non-overlapping rectangle
never ends overlapping a solid cell. -/
lemma move_v_safe (g : TileGrid) (r : Rect) (dy : ℚ)
    (hc : collides g r = false) : collides g (move_v g r dy) = false := by
  unfold move_v
  split_ifs with hdy
  · rw [collides_eq_false_iff] at hc ⊢
    intro cx cy hs hho hvo
    set m := minWith (r.y + dy) (blocksDown g r) with hm
    have hym : r.y ≤ m := by
      rcases minWith_mem_or (r.y + dy) (blocksDown g r) with h | h
      · rw [← hm] at h
        rw [h]
        linarith
      · rw [← hm] at h
        rcases mem_blocksDown.1 h with ⟨cx', cy', _, _, h3, h4⟩
        rw [h4]
        linarith
    have hvr : (cy : ℚ) * g.ts < m + r.h ∧ m < ((cy : ℚ) + 1) * g.ts := hvo
    by_cases hcand : r.y + r.h ≤ (cy : ℚ) * g.ts
    · have hmem : ((cy : ℚ) * g.ts - r.h) ∈ blocksDown g r :=
        mem_blocksDown.2 ⟨cx, cy, hs, hho, hcand, rfl⟩
      have hle := minWith_le_mem (r.y + dy) hmem
      rw [← hm] at hle
      linarith [hvr.1]
    · push_neg at hcand
      have hnot := hc cx cy hs
      have hyge : ((cy : ℚ) + 1) * g.ts ≤ r.y := by
        by_contra hlt
        push_neg at hlt
        exact hnot hho ⟨hcand, hlt⟩
      linarith [hvr.2]
  · push_neg at hdy
    rw [collides_eq_false_iff] at hc ⊢
    intro cx cy hs hho hvo
    set m := maxWith (r.y + dy) (blocksUp g r) with hm
    have hym : m ≤ r.y := by
      rcases maxWith_mem_or (r.y + dy) (blocksUp g r) with h | h
      · rw [← hm] at h
        rw [h]
        linarith
      · rw [← hm] at h
        rcases mem_blocksUp.1 h with ⟨cx', cy', _, _, h3, h4⟩
        rw [h4]
        linarith
    have hvr : (cy : ℚ) * g.ts < m + r.h ∧ m < ((cy : ℚ) + 1) * g.ts := hvo
    by_cases hcand : ((cy : ℚ) + 1) * g.ts ≤ r.y
    · have hmem : (((cy : ℚ) + 1) * g.ts) ∈ blocksUp g r :=
        mem_blocksUp.2 ⟨cx, cy, hs, hho, hcand, rfl⟩
      have hle := mem_le_maxWith (r.y + dy) hmem
      rw [← hm] at hle
      linarith [hvr.2]
    · push_neg at hcand
      have hnot := hc cx cy hs
      have hwle : r.y + r.h ≤ (cy : ℚ) * g.ts := by
        by_contra hlt
        push_neg at hlt
        exact hnot hho ⟨hlt, hcand⟩
      linarith [hvr.1]

/-- C7 (spec-modelled): starting from a rectangle that does not overlap any
Solid cell, any sequence of `move_h`-then-`move_v` ticks — with deltas of
any size, including larger than one tile — never leaves the rectangle
overlapping a Solid cell. -/
theorem claim7_move_never_overlaps (g : TileGrid) (r : Rect)
    (ds : List (ℚ × ℚ)) (h : collides g r = false) :
    collides g (runDeltas g r ds) = false := by
  induction ds generalizing r with
  | nil => exact h
  | cons d ds ih =>
    show collides g (runDeltas g (move_v g (move_h g r d.1) d.2) ds) = false
    exact ih _ (move_v_safe g _ d.2 (move_h_safe g r d.1 h))

/-- Witness for C7: on a 2×2 grid whose bottom row is solid, a rectangle in
the top-left corner pushed right and down by five tiles ends up non-overlapping. -/
theorem claim7_witness :
    collides ⟨2, 2, 1, [Tile.Empty, Tile.Empty, Tile.Solid, Tile.Solid]⟩
      ⟨0, 0, 1 / 2, 1 / 2⟩ = false ∧
    collides ⟨2, 2, 1, [Tile.Empty, Tile.Empty, Tile.Solid, Tile.Solid]⟩
      (runDeltas ⟨2, 2, 1, [Tile.Empty, Tile.Empty, Tile.Solid, Tile.Solid]⟩
        ⟨0, 0, 1 / 2, 1 / 2⟩ [(5, 5)]) = false := by
  have h : collides ⟨2, 2, 1, [Tile.Empty, Tile.Empty, Tile.Solid, Tile.Solid]⟩
      ⟨0, 0, 1 / 2, 1 / 2⟩ = false := by
    norm_num [collides, TileGrid.allCells, TileGrid.solidAt, horizOverlap,
      vertOverlap, List.range, List.range.loop, List.product]
    decide
  exact ⟨h, claim7_move_never_overlaps _ _ _ h⟩

end GamingAdventure
